import Mathlib

/-!
Shallow embedding of the session-coordination layer of the AI-D-D repository
(`src/backend/endpoints/game_session_websocket.py`, `src/backend/utils.py`,
`src/backend/models.py`, `src/backend/endpoints/take_action_endpoint.py`).

Connections (Python WebSocket objects) are modelled as natural-number
identifiers.  Python dicts keyed by websockets are modelled as association
lists with first-occurrence lookup, in-place update and append-on-miss,
which matches CPython dict semantics on the operations the source uses.
Network sends are modelled through a failure oracle `fails : Nat → Bool`;
`send_json` to a connection with `fails = true` raises, mirroring a failed
`websocket.send_json` await.  Raised exceptions that the source does not
catch are surfaced as `Except.error`.
-/

namespace AIDnD

/-- Python exceptions that the modelled code can raise. -/
inductive PyError where
  | attributeError
  | sendError
deriving DecidableEq, Repr

/-- Model `ActionChoice` from `src/backend/models.py` (lines 49-51). -/
structure ActionChoice where
  id : Int
  text : String
deriving DecidableEq, Repr

/-- Model `StoryScene` from `src/backend/models.py` (lines 62-65).  The pydantic
model declares exactly the fields `text`, `image` and `choices`; in
particular it has no `activeCharacterIndex` field. -/
structure StoryScene where
  text : String
  image : Option String := none
  choices : List ActionChoice := []
deriving DecidableEq, Repr

/-- Model `GameSettings` from `src/backend/models.py` (lines 25-32).  All fields
are plain typed fields with defaults; the model declares no validators and
no range constraints. -/
structure GameSettings where
  playerCount : Int
  enableImages : Bool := false
  enableAITTS : Bool := false
  enableMusic : Bool := false
  aiModel : String := "llama3"
  scenesPerChapter : Int := 3
  chaptersPerArc : Int := 3
deriving DecidableEq, Repr

/-- A character descriptor as the session layer sees it: the websocket code
treats characters as opaque dicts except for reading `char["name"]`
(`game_session_websocket.py` line 136), so only the name is modelled. -/
structure Character where
  name : String
deriving DecidableEq, Repr

/-- Messages sent over the websocket by the session layer, with the payload
fields the source puts in each `send_json` call. -/
inductive Msg where
  | availableCharacters (characters : List (Character × Bool))
  | errorMsg (message : String)
  | characterAssigned (character : Character)
  | gameStateUpdate (newScene : StoryScene)
  | playerCharacterAssigned (player_index : Nat) (character_index : Int)
      (character_name : String)
  | playerAction (player_index : Int) (action : String)
deriving DecidableEq, Repr

/-! Python dict semantics over association lists -/

/-- Dict lookup `d[k]` / `d.get(k)`: value at the first (unique) entry with
the given key. -/
def dictGet : List (Nat × Int) → Nat → Option Int
  | [], _ => none
  | p :: rest, k => if p.1 = k then some p.2 else dictGet rest k

/-- Dict membership `k in d`. -/
def dictHasKey (d : List (Nat × Int)) (k : Nat) : Bool :=
  decide (k ∈ d.map Prod.fst)

/-- Dict assignment `d[k] = v`: replaces the value at an existing key,
appends a new entry otherwise. -/
def dictSet : List (Nat × Int) → Nat → Int → List (Nat × Int)
  | [], k, v => [(k, v)]
  | p :: rest, k, v => if p.1 = k then (k, v) :: rest else p :: dictSet rest k v

/-- Dict deletion `del d[k]` (no-op on a missing key, matching the guarded
`if websocket in self.assigned_characters: del ...` in the source). -/
def dictDel (d : List (Nat × Int)) (k : Nat) : List (Nat × Int) :=
  d.filter (fun p => decide (p.1 ≠ k))

/-- Values view `d.values()`. -/
def dictValues (d : List (Nat × Int)) : List Int :=
  d.map Prod.snd

/-- Keys view `d.keys()` (also the iteration order of `k in d`). -/
def dictKeys (d : List (Nat × Int)) : List Nat :=
  d.map Prod.fst

/-! GameSession (`game_session_websocket.py` lines 53-217) -/

/-- The state of `GameSession` (`game_session_websocket.py` lines 56-65). -/
structure GameSession where
  session_code : String
  host_websocket : Nat
  player_connections : List Nat := []
  current_scene : Option StoryScene := none
  characters : List Character := []
  assigned_characters : List (Nat × Int) := []
deriving DecidableEq, Repr

/-- Raw `websocket.send_json(m)`: raises when the connection's send fails,
otherwise delivers exactly one message to `to`. -/
def send_json (fails : Nat → Bool) (dst : Nat) (m : Msg) :
    Except PyError (List (Nat × Msg)) :=
  if fails dst then Except.error PyError.sendError else Except.ok [(dst, m)]

/-- Guarded `websocket.send_json(m)` wrapped in `try/except` by the caller: a failed
send is swallowed and delivers nothing. -/
def trySend (fails : Nat → Bool) (dst : Nat) (m : Msg) : List (Nat × Msg) :=
  if fails dst then [] else [(dst, m)]

/-- Method `GameSession.send_available_characters` (lines 74-95).  The whole body is
wrapped in `try/except`, so the operation never raises. -/
def send_available_characters (fails : Nat → Bool) (s : GameSession)
    (ws : Nat) : List (Nat × Msg) :=
  let assigned_indices := dictValues s.assigned_characters
  let available_characters :=
    s.characters.enum.map (fun p => (p.2, decide ((p.1 : Int) ∈ assigned_indices)))
  trySend fails ws (Msg.availableCharacters available_characters)

/-- Method `GameSession.connect_player` (lines 67-72): appends the connection and
sends it the annotated roster. -/
def connect_player (fails : Nat → Bool) (s : GameSession) (ws : Nat) :
    GameSession × List (Nat × Msg) :=
  let s' := { s with player_connections := s.player_connections ++ [ws] }
  (s', send_available_characters fails s' ws)

/-- Method `GameSession.send_game_state_to_player` (lines 155-168).  The body is in
`try/except`: when `current_scene` is `None`, `None.model_dump()` raises
`AttributeError`, which the handler catches, so nothing is sent. -/
def send_game_state_to_player (fails : Nat → Bool) (s : GameSession)
    (ws : Nat) : List (Nat × Msg) :=
  if dictHasKey s.assigned_characters ws then
    match s.current_scene with
    | some scene => trySend fails ws (Msg.gameStateUpdate scene)
    | none => []
  else []

/-- Method `GameSession.assign_character` (lines 97-142).  Returns the resulting
session state, the successfully delivered messages, and the outcome: the
Python function's `bool` result, or the exception it lets escape (the two
error replies and the confirmation `send_json` are not wrapped in `try`).
The host notification is wrapped in `try/except`; inside that block
`player_connections.index(websocket)` raises `ValueError` when the
websocket is not a member, which the `except` also swallows. -/
def assign_character (fails : Nat → Bool) (s : GameSession) (ws : Nat)
    (character_index : Int) :
    GameSession × List (Nat × Msg) × Except PyError Bool :=
  if character_index ∈ dictValues s.assigned_characters then
    match send_json fails ws
        (Msg.errorMsg "This character is already taken by another player") with
    | Except.error e => (s, [], Except.error e)
    | Except.ok out => (s, out, Except.ok false)
  else if character_index < 0 ∨ (s.characters.length : Int) ≤ character_index then
    match send_json fails ws (Msg.errorMsg "Invalid character selection") with
    | Except.error e => (s, [], Except.error e)
    | Except.ok out => (s, out, Except.ok false)
  else
    let s' := { s with
      assigned_characters := dictSet s.assigned_characters ws character_index }
    let character := s'.characters.getD character_index.toNat { name := "" }
    match send_json fails ws (Msg.characterAssigned character) with
    | Except.error e => (s', [], Except.error e)
    | Except.ok out1 =>
      let out2 := send_game_state_to_player fails s' ws
      let out3 :=
        if ws ∈ s'.player_connections then
          trySend fails s'.host_websocket
            (Msg.playerCharacterAssigned (s'.player_connections.indexOf ws)
              character_index character.name)
        else []
      (s', out1 ++ out2 ++ out3, Except.ok true)

/-- Method `GameSession.disconnect_player` (lines 144-153): removes the connection
(first occurrence, as `list.remove`) and frees its assignment; a no-op for a
connection that is not a member. -/
def disconnect_player (s : GameSession) (ws : Nat) : GameSession :=
  if ws ∈ s.player_connections then
    { s with
      player_connections := s.player_connections.erase ws,
      assigned_characters := dictDel s.assigned_characters ws }
  else s

/-- Method `GameSession.update_game_state` (lines 170-180): stores the new scene
snapshot (`model_copy`), then iterates over `player_connections`, sending
the state to each connection that has an assignment; each send is doubly
guarded by `try/except` (in the loop and inside
`send_game_state_to_player`), so no failure escapes. -/
def update_game_state (fails : Nat → Bool) (s : GameSession)
    (new_scene : StoryScene) : GameSession × List (Nat × Msg) :=
  let s' := { s with current_scene := some new_scene }
  (s', s'.player_connections.flatMap (fun player_ws =>
    if dictHasKey s'.assigned_characters player_ws then
      send_game_state_to_player fails s' player_ws
    else []))

/-- Method `GameSession.update_characters` (lines 182-189): replaces the roster
wholesale, then re-sends the annotated roster to every connection without
an assignment.  The assignment map is left untouched. -/
def update_characters (fails : Nat → Bool) (s : GameSession)
    (characters : List Character) : GameSession × List (Nat × Msg) :=
  let s' := { s with characters := characters }
  (s', s'.player_connections.flatMap (fun player_ws =>
    if dictHasKey s'.assigned_characters player_ws then []
    else send_available_characters fails s' player_ws))

/-- Python evaluation of `self.current_scene.activeCharacterIndex`
(`game_session_websocket.py` line 204).  `current_scene` is either `None`
(attribute access on `None` raises `AttributeError`) or a `StoryScene`
pydantic instance, whose class (`models.py` lines 62-65) declares only
`text`, `image` and `choices` — reading the undeclared attribute
`activeCharacterIndex` raises `AttributeError` as well. -/
def sceneActiveCharacterIndex : Option StoryScene → Except PyError Int
  | none => Except.error PyError.attributeError
  | some _ => Except.error PyError.attributeError

/-- Method `GameSession.handle_player_action` (lines 191-217).  Only the final
forward to the host is wrapped in `try/except`; anything raised before it
escapes to the caller. -/
def handle_player_action (fails : Nat → Bool) (s : GameSession)
    (player_index : Nat) (action : String) :
    Except PyError (List (Nat × Msg)) :=
  if h : player_index < s.player_connections.length then
    let player_ws := s.player_connections.get ⟨player_index, h⟩
    match dictGet s.assigned_characters player_ws with
    | none => Except.ok []
    | some character_index =>
      match sceneActiveCharacterIndex s.current_scene with
      | Except.error e => Except.error e
      | Except.ok active =>
        if character_index ≠ active then Except.ok []
        else Except.ok
          (trySend fails s.host_websocket (Msg.playerAction character_index action))
  else Except.ok []

/-! GameSessionManager (`game_session_websocket.py` lines 12-51) -/

/-- The state of `GameSessionManager` (lines 15-19): the live-session dict
and the set of ever-used codes (modelled as a duplicate-free list). -/
structure GameSessionManager where
  active_sessions : List (String × GameSession) := []
  used_codes : List String := []
deriving DecidableEq, Repr

/-- Python `f"{n:04d}"`: decimal digits zero-padded on the left to width 4. -/
def formatCode (n : Nat) : String :=
  let s := toString n
  String.mk (List.replicate (4 - s.length) '0') ++ s

/-- Method `GameSessionManager.generate_session_code` (lines 21-28).  The
`while True` loop draws `random.randint(0, 9999)` until the formatted code
is not in `used_codes`; the draws are supplied as the list `rolls`, and
`none` means every supplied draw collided — the Python loop would still be
running (with no draws left to it, forever). -/
def generate_session_code (used : List String) : List Nat → Option (String × List String)
  | [] => none
  | r :: rs =>
    let code := formatCode r
    if code ∈ used then generate_session_code used rs
    else some (code, code :: used)

/-- Dict assignment on the session table (`self.active_sessions[code] = ...`). -/
def sessionDictSet (d : List (String × GameSession)) (k : String)
    (v : GameSession) : List (String × GameSession) :=
  match d with
  | [] => [(k, v)]
  | p :: rest => if p.1 = k then (k, v) :: rest else p :: sessionDictSet rest k v

/-- Constructor `GameSession.__init__` (lines 56-65). -/
def GameSession.create (session_code : String) (host_websocket : Nat) : GameSession :=
  { session_code := session_code, host_websocket := host_websocket }

/-- Method `GameSessionManager.create_session` (lines 30-35): generates a fresh
code, registers a new session under it and returns the code.  `none`
propagates a non-terminating `generate_session_code`. -/
def create_session (m : GameSessionManager) (host_websocket : Nat)
    (rolls : List Nat) : Option (String × GameSessionManager) :=
  match generate_session_code m.used_codes rolls with
  | none => none
  | some (code, used') =>
    some (code,
      { active_sessions := sessionDictSet m.active_sessions code
          (GameSession.create code host_websocket),
        used_codes := used' })

/-- Method `GameSessionManager.get_session` (lines 37-39). -/
def get_session (m : GameSessionManager) (code : String) : Option GameSession :=
  (m.active_sessions.find? (fun p => p.1 == code)).map Prod.snd

/-- Method `GameSessionManager.remove_session` (lines 41-45): deletes the session
from the live dict (guarded, so idempotent) and touches nothing else — in
particular `used_codes` keeps the removed session's code. -/
def remove_session (m : GameSessionManager) (code : String) : GameSessionManager :=
  if code ∈ m.active_sessions.map Prod.fst then
    { m with active_sessions :=
        m.active_sessions.filter (fun p => decide (p.1 ≠ code)) }
  else m

/-- Method `GameSessionManager.set_session_characters` (lines 47-51): in-place
mutation of one live session's roster, modelled as a keyed update. -/
def set_session_characters (m : GameSessionManager) (code : String)
    (characters : List Character) : GameSessionManager :=
  match get_session m code with
  | none => m
  | some s =>
    let updated := { s with characters := characters }
    { m with active_sessions := sessionDictSet m.active_sessions code updated }

/-- Registry states reachable from the fresh `GameSessionManager()`
singleton (line 220) by the operations the handler performs on it:
session creation, session removal, and any in-place mutation of the
session objects stored in the table (player joins, assignments, scene and
roster updates — none of which touch the table's keys or `used_codes`). -/
inductive Reachable : GameSessionManager → Prop
  | init : Reachable (GameSessionManager.mk [] [])
  | create {m : GameSessionManager} {host : Nat} {rolls : List Nat}
      {code : String} {m' : GameSessionManager} :
      Reachable m → create_session m host rolls = some (code, m') → Reachable m'
  | remove {m : GameSessionManager} (code : String) :
      Reachable m → Reachable (remove_session m code)
  | mutate {m : GameSessionManager} (f : String → GameSession → GameSession) :
      Reachable m →
      Reachable { m with active_sessions :=
        m.active_sessions.map (fun p => (p.1, f p.1 p.2)) }

/-! ChapterManager (`src/backend/utils.py` lines 103-114) and the
chapter-progression helpers -/

/-- Method `ChapterManager.calculate_chapter_cycle` (utils.py lines 106-109):
`chapter_index % 3`, with the modulus written as the literal `3`.  Lean's
`Int` `%` is `Int.emod`, which agrees with Python `%` for the positive
modulus 3. -/
def calculate_chapter_cycle (chapter_index : Int) : Int :=
  chapter_index % 3

/-- Method `ChapterManager.is_cycle_end` (utils.py lines 111-114):
`calculate_chapter_cycle(chapter_index) == 2`. -/
def is_cycle_end (chapter_index : Int) : Bool :=
  calculate_chapter_cycle chapter_index == 2

/-- Function `_is_chapter_ending` (take_action_endpoint.py lines 73-76):
`rounds_in_chapter >= rounds_per_chapter`, no input checking. -/
def is_chapter_ending (rounds_in_chapter rounds_per_chapter : Int) : Bool :=
  rounds_in_chapter ≥ rounds_per_chapter

/-- Configuration failure named by the specification. -/
inductive ConfigError where
  | invalidConfiguration
deriving DecidableEq, Repr

/-- Pydantic validation of a `GameSettings` payload (models.py lines
25-32): the model declares only plain `int`/`bool`/`str` fields with
defaults and no validators, so any already-typed settings value is
accepted unchanged — zero or negative thresholds included. -/
def validateGameSettings (s : GameSettings) : Except ConfigError GameSettings :=
  Except.ok s

/-- Modelled from the spec: the specification's configuration check —
"zero or negative chapter/arc length thresholds: fail fast at session
configuration time" with `InvalidConfiguration`.  No such check exists in
the source; this definition follows the spec's words for comparison. -/
def specValidateGameSettings (s : GameSettings) : Except ConfigError GameSettings :=
  if s.scenesPerChapter ≤ 0 ∨ s.chaptersPerArc ≤ 0 then
    Except.error ConfigError.invalidConfiguration
  else Except.ok s

/-- Modelled from the spec: `cyclePosition(unitIndex, unitsPerCycle) ->
unitIndex mod unitsPerCycle` with a per-session configurable
`unitsPerCycle`.  The source's `calculate_chapter_cycle` takes no such
parameter; this definition follows the spec's words for comparison. -/
def specCyclePosition (unitIndex unitsPerCycle : Int) : Int :=
  unitIndex % unitsPerCycle

/-- Modelled from the spec: `isCycleEnding(unitIndex, unitsPerCycle)` is
true when `cyclePosition(unitIndex, unitsPerCycle) == unitsPerCycle - 1`. -/
def specIsCycleEnding (unitIndex unitsPerCycle : Int) : Bool :=
  specCyclePosition unitIndex unitsPerCycle == unitsPerCycle - 1

/-! Derived predicates and runs -/

/-- The assignment map is injective: at most one character index per
connection (keys are pairwise distinct — automatic for a dict) and at
most one connection per character index (values are pairwise distinct). -/
def injectiveAssignments (d : List (Nat × Int)) : Prop :=
  (d.map Prod.fst).Nodup ∧ (d.map Prod.snd).Nodup

instance (d : List (Nat × Int)) : Decidable (injectiveAssignments d) := by
  unfold injectiveAssignments
  infer_instance

/-- Run a sequence of `assign_character` calls, keeping whatever state each
call leaves behind (also on a raised send error, since the Python dict
mutation precedes the confirmation send). -/
def runAssigns (fails : Nat → Bool) : GameSession → List (Nat × Int) → GameSession
  | s, [] => s
  | s, c :: rest => runAssigns fails (assign_character fails s c.1 c.2).1 rest

/-- The data-model invariant of section 3 of the specification:
`assignments ⊆ {0..len(characters)-1} × connected players`. -/
def sessionInv (s : GameSession) : Prop :=
  (∀ p ∈ s.assigned_characters, p.1 ∈ s.player_connections) ∧
  (∀ p ∈ s.assigned_characters, 0 ≤ p.2 ∧ p.2 < (s.characters.length : Int))

instance (s : GameSession) : Decidable (sessionInv s) := by
  unfold sessionInv
  infer_instance

/-- A concrete session fixture used by witness theorems: host connection 0,
player connections 1 and 2, a two-character roster, and connection 1
holding character 0. -/
def wsFixture : GameSession :=
  { session_code := "7777", host_websocket := 0, player_connections := [1, 2],
    current_scene := none,
    characters := [{ name := "Alice" }, { name := "Bob" }],
    assigned_characters := [(1, 0)] }

/-- A concrete scene fixture used by witness theorems. -/
def sceneFixture : StoryScene :=
  { text := "The gate creaks open.", image := none, choices := [] }

/-! Registry lemmas -/

theorem generate_session_code_spec {used : List String} {rolls : List Nat}
    {code : String} {used' : List String}
    (h : generate_session_code used rolls = some (code, used')) :
    code ∉ used ∧ used' = code :: used := by
  induction rolls with
  | nil => simp [generate_session_code] at h
  | cons r rs ih =>
    by_cases hc : formatCode r ∈ used
    · exact ih (by simpa [generate_session_code, hc] using h)
    · simp only [generate_session_code, if_neg hc, Option.some.injEq, Prod.mk.injEq] at h
      obtain ⟨h1, h2⟩ := h
      subst h1
      subst h2
      exact ⟨hc, rfl⟩

theorem sessionDictSet_of_not_mem {d : List (String × GameSession)} {k : String}
    {v : GameSession} (h : k ∉ d.map Prod.fst) :
    sessionDictSet d k v = d ++ [(k, v)] := by
  induction d with
  | nil => rfl
  | cons p rest ih =>
    simp only [List.map_cons, List.mem_cons, not_or] at h
    obtain ⟨h1, h2⟩ := h
    have hne : ¬ p.1 = k := fun he => h1 he.symm
    simp only [sessionDictSet, if_neg hne, List.cons_append, List.cons.injEq, true_and]
    exact ih h2

/-- Invariant of every reachable registry state: each live session's code
has been recorded in `used_codes`, and no two live sessions share a code. -/
theorem reachable_registry_invariant {m : GameSessionManager} (h : Reachable m) :
    (∀ code ∈ m.active_sessions.map Prod.fst, code ∈ m.used_codes) ∧
    (m.active_sessions.map Prod.fst).Nodup := by
  induction h with
  | init => simp
  | @create m host rolls code m' _ hc ih =>
    obtain ⟨hsub, hnd⟩ := ih
    unfold create_session at hc
    cases hg : generate_session_code m.used_codes rolls with
    | none => rw [hg] at hc; exact absurd hc (by simp)
    | some p =>
      obtain ⟨c0, u0⟩ := p
      rw [hg] at hc
      obtain ⟨hfresh, hused⟩ := generate_session_code_spec hg
      simp only [Option.some.injEq, Prod.mk.injEq] at hc
      obtain ⟨-, hm'⟩ := hc
      subst hm'
      have hnotkey : c0 ∉ m.active_sessions.map Prod.fst :=
        fun hk => hfresh (hsub c0 hk)
      dsimp only
      rw [sessionDictSet_of_not_mem hnotkey]
      constructor
      · intro c hcmem
        simp only [List.map_append, List.map_cons, List.map_nil, List.mem_append,
          List.mem_singleton] at hcmem
        rw [hused]
        rcases hcmem with hcm | hcm
        · exact List.mem_cons_of_mem _ (hsub c hcm)
        · simp [hcm]
      · simp only [List.map_append, List.map_cons, List.map_nil]
        exact List.Nodup.append hnd (List.nodup_singleton c0)
          (fun a ha hb => hnotkey ((List.mem_singleton.mp hb) ▸ ha))
  | @remove m code hm ih =>
    obtain ⟨hsub, hnd⟩ := ih
    unfold remove_session
    by_cases hmem : code ∈ m.active_sessions.map Prod.fst
    · simp only [if_pos hmem]
      constructor
      · intro c hcmem
        simp only [List.mem_map, List.mem_filter] at hcmem
        obtain ⟨p, ⟨hp, _⟩, hpc⟩ := hcmem
        exact hsub c (hpc ▸ List.mem_map_of_mem Prod.fst hp)
      · exact List.Nodup.sublist (List.Sublist.map Prod.fst (List.filter_sublist _)) hnd
    · simp only [if_neg hmem]
      exact ⟨hsub, hnd⟩
  | @mutate m f _ ih =>
    obtain ⟨hsub, hnd⟩ := ih
    have hkeys : (m.active_sessions.map (fun p => (p.1, f p.1 p.2))).map Prod.fst
        = m.active_sessions.map Prod.fst := by
      rw [List.map_map]
      rfl
    constructor
    · intro c hcmem
      rw [hkeys] at hcmem
      exact hsub c hcmem
    · rw [hkeys]
      exact hnd

/-! Dictionary and session lemmas -/

theorem mem_dictKeys_dictSet {d : List (Nat × Int)} {k x : Nat} {v : Int}
    (h : x ∈ (dictSet d k v).map Prod.fst) : x ∈ d.map Prod.fst ∨ x = k := by
  induction d with
  | nil =>
    simp only [dictSet, List.map_cons, List.map_nil, List.mem_singleton] at h
    exact Or.inr h
  | cons p rest ih =>
    simp only [dictSet] at h
    by_cases hpk : p.1 = k
    · rw [if_pos hpk] at h
      simp only [List.map_cons, List.mem_cons] at h
      rcases h with h | h
      · exact Or.inr h
      · exact Or.inl (List.mem_cons_of_mem _ h)
    · rw [if_neg hpk] at h
      simp only [List.map_cons, List.mem_cons] at h
      rcases h with h | h
      · exact Or.inl (List.mem_cons.mpr (Or.inl h))
      · rcases ih h with h' | h'
        · exact Or.inl (List.mem_cons_of_mem _ h')
        · exact Or.inr h'

theorem mem_dictValues_dictSet {d : List (Nat × Int)} {k : Nat} {v x : Int}
    (h : x ∈ (dictSet d k v).map Prod.snd) : x ∈ d.map Prod.snd ∨ x = v := by
  induction d with
  | nil =>
    simp only [dictSet, List.map_cons, List.map_nil, List.mem_singleton] at h
    exact Or.inr h
  | cons p rest ih =>
    simp only [dictSet] at h
    by_cases hpk : p.1 = k
    · rw [if_pos hpk] at h
      simp only [List.map_cons, List.mem_cons] at h
      rcases h with h | h
      · exact Or.inr h
      · exact Or.inl (List.mem_cons_of_mem _ h)
    · rw [if_neg hpk] at h
      simp only [List.map_cons, List.mem_cons] at h
      rcases h with h | h
      · exact Or.inl (List.mem_cons.mpr (Or.inl h))
      · rcases ih h with h' | h'
        · exact Or.inl (List.mem_cons_of_mem _ h')
        · exact Or.inr h'

theorem mem_dictSet_elim {d : List (Nat × Int)} {k : Nat} {v : Int}
    {p : Nat × Int} (h : p ∈ dictSet d k v) : p ∈ d ∨ p = (k, v) := by
  induction d with
  | nil =>
    simp only [dictSet, List.mem_singleton] at h
    exact Or.inr h
  | cons q rest ih =>
    simp only [dictSet] at h
    by_cases hqk : q.1 = k
    · rw [if_pos hqk] at h
      rcases List.mem_cons.mp h with h | h
      · exact Or.inr h
      · exact Or.inl (List.mem_cons_of_mem _ h)
    · rw [if_neg hqk] at h
      rcases List.mem_cons.mp h with h | h
      · exact Or.inl (List.mem_cons.mpr (Or.inl h))
      · rcases ih h with h' | h'
        · exact Or.inl (List.mem_cons_of_mem _ h')
        · exact Or.inr h'

theorem injective_dictSet {d : List (Nat × Int)} {k : Nat} {v : Int}
    (h : injectiveAssignments d) (hv : v ∉ d.map Prod.snd) :
    injectiveAssignments (dictSet d k v) := by
  induction d with
  | nil => exact ⟨List.nodup_singleton k, List.nodup_singleton v⟩
  | cons p rest ih =>
    obtain ⟨hkeys, hvals⟩ := h
    simp only [List.map_cons, List.nodup_cons] at hkeys hvals
    obtain ⟨hpk, hkeys⟩ := hkeys
    obtain ⟨hpv, hvals⟩ := hvals
    simp only [List.map_cons, List.mem_cons, not_or] at hv
    obtain ⟨hv1, hv2⟩ := hv
    by_cases hpk' : p.1 = k
    · refine ⟨?_, ?_⟩
      · simp only [dictSet, if_pos hpk', List.map_cons, List.nodup_cons]
        exact ⟨hpk' ▸ hpk, hkeys⟩
      · simp only [dictSet, if_pos hpk', List.map_cons, List.nodup_cons]
        exact ⟨hv2, hvals⟩
    · obtain ⟨ihk, ihv⟩ := ih ⟨hkeys, hvals⟩ hv2
      refine ⟨?_, ?_⟩
      · simp only [dictSet, if_neg hpk', List.map_cons, List.nodup_cons]
        refine ⟨fun hmem => ?_, ihk⟩
        rcases mem_dictKeys_dictSet hmem with h' | h'
        · exact hpk h'
        · exact hpk' h'
      · simp only [dictSet, if_neg hpk', List.map_cons, List.nodup_cons]
        refine ⟨fun hmem => ?_, ihv⟩
        rcases mem_dictValues_dictSet hmem with h' | h'
        · exact hpv h'
        · exact hv1 h'.symm

theorem dictGet_dictSet_self (d : List (Nat × Int)) (k : Nat) (v : Int) :
    dictGet (dictSet d k v) k = some v := by
  induction d with
  | nil => simp [dictSet, dictGet]
  | cons p rest ih =>
    by_cases hpk : p.1 = k
    · simp [dictSet, if_pos hpk, dictGet]
    · simp [dictSet, if_neg hpk, dictGet, hpk, ih]

theorem dictGet_mem {d : List (Nat × Int)} {k : Nat} {v : Int}
    (h : dictGet d k = some v) : (k, v) ∈ d := by
  induction d with
  | nil => simp [dictGet] at h
  | cons p rest ih =>
    rw [dictGet] at h
    by_cases hpk : p.1 = k
    · rw [if_pos hpk] at h
      have hv : p.2 = v := Option.some.inj h
      have : p = (k, v) := Prod.ext hpk hv
      exact this ▸ List.mem_cons_self p rest
    · rw [if_neg hpk] at h
      exact List.mem_cons_of_mem _ (ih h)

theorem mem_values_dictSet_of_nodup {d : List (Nat × Int)} {k : Nat}
    {v x : Int} (hnd : (d.map Prod.fst).Nodup)
    (hx : x ∈ (dictSet d k v).map Prod.snd) :
    x = v ∨ ∃ p, p ∈ d ∧ p.2 = x ∧ p.1 ≠ k := by
  induction d with
  | nil =>
    simp only [dictSet, List.map_cons, List.map_nil, List.mem_singleton] at hx
    exact Or.inl hx
  | cons p rest ih =>
    simp only [List.map_cons, List.nodup_cons] at hnd
    obtain ⟨hp1, hnd⟩ := hnd
    simp only [dictSet] at hx
    by_cases hpk : p.1 = k
    · rw [if_pos hpk] at hx
      simp only [List.map_cons, List.mem_cons] at hx
      rcases hx with hx | hx
      · exact Or.inl hx
      · right
        obtain ⟨q, hq, hqx⟩ := List.mem_map.mp hx
        refine ⟨q, List.mem_cons_of_mem _ hq, hqx, fun hqk => ?_⟩
        exact hp1 ((hqk.trans hpk.symm) ▸ List.mem_map_of_mem Prod.fst hq)
    · rw [if_neg hpk] at hx
      simp only [List.map_cons, List.mem_cons] at hx
      rcases hx with hx | hx
      · exact Or.inr ⟨p, List.mem_cons_self p rest, hx.symm, hpk⟩
      · rcases ih hnd hx with h' | h'
        · exact Or.inl h'
        · obtain ⟨q, hq, hqx, hqk⟩ := h'
          exact Or.inr ⟨q, List.mem_cons_of_mem _ hq, hqx, hqk⟩

/-- The session state `assign_character` leaves behind: unchanged on either
error reply, and the single dict write `assigned_characters[ws] = ci`
otherwise — also when the confirmation send then raises, because the
mutation precedes it. -/
theorem assign_character_state (fails : Nat → Bool) (s : GameSession)
    (ws : Nat) (ci : Int) :
    (assign_character fails s ws ci).1 = s ∨
    ((assign_character fails s ws ci).1 =
        { s with assigned_characters := dictSet s.assigned_characters ws ci } ∧
      ci ∉ dictValues s.assigned_characters ∧
      ¬ (ci < 0 ∨ (s.characters.length : Int) ≤ ci)) := by
  unfold assign_character send_json
  by_cases h1 : ci ∈ dictValues s.assigned_characters
  · rw [if_pos h1]
    by_cases hfw : fails ws = true
    · rw [if_pos hfw]
      exact Or.inl rfl
    · rw [if_neg hfw]
      exact Or.inl rfl
  · rw [if_neg h1]
    by_cases h2 : ci < 0 ∨ (s.characters.length : Int) ≤ ci
    · rw [if_pos h2]
      by_cases hfw : fails ws = true
      · rw [if_pos hfw]
        exact Or.inl rfl
      · rw [if_neg hfw]
        exact Or.inl rfl
    · rw [if_neg h2]
      cases hfw : fails ws with
      | true => exact Or.inr ⟨rfl, h1, h2⟩
      | false => exact Or.inr ⟨rfl, h1, h2⟩

/-- A valid, untaken index whose confirmation send succeeds is assigned:
the call returns `True` and performs exactly the dict write. -/
theorem assign_character_success (fails : Nat → Bool) (s : GameSession)
    (ws : Nat) (ci : Int)
    (h1 : ci ∉ dictValues s.assigned_characters)
    (h2 : 0 ≤ ci) (h3 : ci < (s.characters.length : Int))
    (hf : fails ws = false) :
    (assign_character fails s ws ci).2.2 = Except.ok true ∧
    (assign_character fails s ws ci).1 =
      { s with assigned_characters := dictSet s.assigned_characters ws ci } := by
  have hb : ¬ (ci < 0 ∨ (s.characters.length : Int) ≤ ci) := by omega
  unfold assign_character send_json
  rw [if_neg h1, if_neg hb, hf]
  exact ⟨rfl, rfl⟩

/-! Claim theorems -/

/-- Claim C2: at every reachable registry state no two live sessions share
a code, and a successful `create_session` returns a code distinct from the
code of every currently live session (so a code can only reappear after
the session holding it has been removed from the table).  Freshness holds
because every live code sits in `used_codes` and the generator rejects
used codes. -/
theorem c2_session_code_uniqueness {m : GameSessionManager} (hm : Reachable m)
    {host : Nat} {rolls : List Nat} {code : String} {m' : GameSessionManager}
    (hc : create_session m host rolls = some (code, m')) :
    (m.active_sessions.map Prod.fst).Nodup ∧
    code ∉ m.active_sessions.map Prod.fst ∧
    (m'.active_sessions.map Prod.fst).Nodup := by
  obtain ⟨hsub, hnd⟩ := reachable_registry_invariant hm
  have hm' : Reachable m' := Reachable.create hm hc
  obtain ⟨-, hnd'⟩ := reachable_registry_invariant hm'
  refine ⟨hnd, ?_, hnd'⟩
  unfold create_session at hc
  cases hg : generate_session_code m.used_codes rolls with
  | none => rw [hg] at hc; exact absurd hc (by simp)
  | some p =>
    obtain ⟨c0, u0⟩ := p
    rw [hg] at hc
    obtain ⟨hfresh, -⟩ := generate_session_code_spec hg
    simp only [Option.some.injEq, Prod.mk.injEq] at hc
    obtain ⟨hcode, -⟩ := hc
    subst hcode
    exact fun hk => hfresh (hsub _ hk)

/-- Witness for C2 at the initial registry: creating a session with roll 42
issues code `"0042"`, which is not a live code, and both the old and new
tables have pairwise-distinct codes. -/
theorem c2_session_code_uniqueness_witness :
    ((GameSessionManager.mk [] []).active_sessions.map Prod.fst).Nodup ∧
    "0042" ∉ (GameSessionManager.mk [] []).active_sessions.map Prod.fst ∧
    ((GameSessionManager.mk [("0042", GameSession.create "0042" 7)]
      ["0042"]).active_sessions.map Prod.fst).Nodup :=
  @c2_session_code_uniqueness (GameSessionManager.mk [] []) Reachable.init
    7 [42] "0042"
    (GameSessionManager.mk [("0042", GameSession.create "0042" 7)] ["0042"])
    (by rfl)

/-- Claim C9: `remove_session` never shrinks `used_codes`;
`generate_session_code` only ever returns a code outside the current
`used_codes` and records it (so the used-code set only grows and an issued
code is never issued again, even after its session is removed); and once
every one of the 10000 four-digit codes is used, code generation exhausts
any supply of random draws without terminating. -/
theorem c9_used_codes_monotone :
    (∀ (m : GameSessionManager) (code : String),
      (remove_session m code).used_codes = m.used_codes) ∧
    (∀ (used : List String) (rolls : List Nat) (code : String) (used' : List String),
      generate_session_code used rolls = some (code, used') →
      code ∉ used ∧ used' = code :: used) ∧
    (∀ (used : List String) (rolls : List Nat),
      (∀ k, k < 10000 → formatCode k ∈ used) →
      (∀ r ∈ rolls, r < 10000) →
      generate_session_code used rolls = none) := by
  refine ⟨?_, ?_, ?_⟩
  · intro m code
    unfold remove_session
    split <;> rfl
  · intro used rolls code used' h
    exact generate_session_code_spec h
  · intro used rolls hall hr
    induction rolls with
    | nil => rfl
    | cons r rs ih =>
      have hmem : formatCode r ∈ used := hall r (hr r (List.mem_cons_self r rs))
      simp only [generate_session_code, if_pos hmem]
      exact ih (fun x hx => hr x (List.mem_cons_of_mem r hx))

/-- Witness for C9: removal keeps `"0042"` in the used set; generating over
an empty used set with roll 42 issues the never-before-issued `"0042"`;
and with all 10000 codes used, generation returns nothing on the draw 0. -/
theorem c9_used_codes_monotone_witness :
    (remove_session (GameSessionManager.mk
      [("0042", GameSession.create "0042" 7)] ["0042"]) "0042").used_codes
        = ["0042"] ∧
    ("0042" ∉ ([] : List String) ∧ ["0042"] = "0042" :: ([] : List String)) ∧
    generate_session_code ((List.range 10000).map formatCode) [0] = none := by
  refine ⟨c9_used_codes_monotone.1 _ _,
    c9_used_codes_monotone.2.1 [] [42] "0042" ["0042"] (by rfl),
    c9_used_codes_monotone.2.2 _ [0] ?_ ?_⟩
  · intro k hk
    exact List.mem_map.mpr ⟨k, List.mem_range.mpr hk, rfl⟩
  · intro r hr
    rw [List.mem_singleton] at hr
    omega

/-- Claim C1 (code bug): in a session where the host has stored a scene,
the single player connection `1` holds the assignment for character 0, and
the player submits an action, `handle_player_action` raises
`AttributeError` — `StoryScene` (models.py lines 62-65) has no
`activeCharacterIndex` attribute for line 204 to read — instead of
forwarding the action or dropping it silently.  For an unassigned
connection the action is indeed dropped silently, as the claim states. -/
theorem c1_handle_player_action_attribute_error :
    handle_player_action (fun _ => false)
      (GameSession.mk "1234" 0 [1] (some (StoryScene.mk "The goblin snarls." none []))
        [Character.mk "Alice"] [(1, 0)]) 0 "attack the goblin"
      = Except.error PyError.attributeError ∧
    handle_player_action (fun _ => false)
      (GameSession.mk "1234" 0 [1] (some (StoryScene.mk "The goblin snarls." none []))
        [Character.mk "Alice"] []) 0 "attack the goblin"
      = Except.ok [] := by
  constructor <;> rfl

/-- Claim C7 counterexample: with a session configured with
`chaptersPerArc = 5`, the claim says `isCycleEnding(4, 5)` is true (the
spec-modelled two-argument function confirms `4 mod 5 = 5 - 1`), but the
code's `is_cycle_end 4` is false — the modulus is the hard-coded literal 3
(utils.py lines 106-114), so `unitsPerCycle` is not configurable. -/
theorem c7_cycle_not_configurable_counterexample :
    ({ playerCount := 2, chaptersPerArc := 5 } : GameSettings).chaptersPerArc = 5 ∧
    specIsCycleEnding 4 5 = true ∧
    is_cycle_end 4 = false := by
  refine ⟨rfl, rfl, rfl⟩

/-- Claim C7 as amended: `calculate_chapter_cycle i = i mod 3` with the
modulus hard-coded to 3, periodicity holds with period 3, and
`is_cycle_end i` is true exactly when the cycle position is `3 - 1`;
`GameSettings.chaptersPerArc` defaults to 3 but is never consulted by the
cycle functions. -/
theorem c7_cycle_functions_hardcoded (i : Int) :
    calculate_chapter_cycle i = i % 3 ∧
    calculate_chapter_cycle (i + 3) = calculate_chapter_cycle i ∧
    (is_cycle_end i = true ↔ calculate_chapter_cycle i = 3 - 1) ∧
    ({ playerCount := 2 } : GameSettings).chaptersPerArc = 3 := by
  refine ⟨rfl, ?_, ?_, rfl⟩
  · unfold calculate_chapter_cycle
    omega
  · unfold is_cycle_end
    simp only [beq_iff_eq]
    norm_num

/-- Claim C8 counterexample: a `GameSettings` payload with zero
`scenesPerChapter` and zero `chaptersPerArc` passes the code's
configuration validation unchanged (models.py declares no validators),
while the spec-modelled check rejects it with `InvalidConfiguration`; and
the narrative functions do not reject negative inputs —
`calculate_chapter_cycle (-1)` returns the ordinary value 2 and
`_is_chapter_ending (-3) (-5)` returns `true`. -/
theorem c8_no_validation_counterexample :
    validateGameSettings { playerCount := 2, scenesPerChapter := 0, chaptersPerArc := 0 } =
      Except.ok { playerCount := 2, scenesPerChapter := 0, chaptersPerArc := 0 } ∧
    specValidateGameSettings { playerCount := 2, scenesPerChapter := 0, chaptersPerArc := 0 } =
      Except.error ConfigError.invalidConfiguration ∧
    calculate_chapter_cycle (-1) = 2 ∧
    is_chapter_ending (-3) (-5) = true := by
  refine ⟨rfl, rfl, rfl, rfl⟩

/-- Claim C8 as amended: the narrative state-machine functions are total
over all integers with no error conditions at all — negative inputs are
not rejected (`calculate_chapter_cycle` always lands in `[0, 3)` by Python
`%` semantics, `_is_chapter_ending n k` is just `k ≤ n`), the modulus is
the literal 3 and can never be zero, and configuration validation accepts
every settings value (zero or negative thresholds are neither rejected nor
clamped). -/
theorem c8_total_no_error_conditions (i n k : Int) (s : GameSettings) :
    validateGameSettings s = Except.ok s ∧
    0 ≤ calculate_chapter_cycle i ∧
    calculate_chapter_cycle i < 3 ∧
    (is_chapter_ending n k = true ↔ k ≤ n) := by
  refine ⟨rfl, ?_, ?_, ?_⟩
  · unfold calculate_chapter_cycle
    omega
  · unfold calculate_chapter_cycle
    omega
  · unfold is_chapter_ending
    simp [ge_iff_le]

/-- Claim C3: the assignment map stays injective under every sequence of
`assign_character` calls — the taken-check (line 100) rejects any index
already among the dict's values, the dict structure itself keeps at most
one index per connection, and failure branches leave the map unchanged. -/
theorem c3_assign_character_injective (fails : Nat → Bool) (s : GameSession)
    (calls : List (Nat × Int))
    (h : injectiveAssignments s.assigned_characters) :
    injectiveAssignments (runAssigns fails s calls).assigned_characters := by
  induction calls generalizing s with
  | nil => exact h
  | cons c rest ih =>
    rw [runAssigns]
    apply ih
    rcases assign_character_state fails s c.1 c.2 with heq | ⟨heq, hv, -⟩
    · rw [heq]
      exact h
    · rw [heq]
      exact injective_dictSet h hv

/-- Witness for C3: from the empty assignment map, the call sequence
(1↦0), (2↦0) (rejected as taken), (2↦1) ends injective. -/
theorem c3_assign_character_injective_witness :
    injectiveAssignments (GameSession.mk "7777" 0 [1, 2] none
      [Character.mk "Alice", Character.mk "Bob"] []).assigned_characters ∧
    injectiveAssignments (runAssigns (fun _ => false)
      (GameSession.mk "7777" 0 [1, 2] none
        [Character.mk "Alice", Character.mk "Bob"] [])
      [(1, 0), (2, 0), (2, 1)]).assigned_characters :=
  ⟨by decide, c3_assign_character_injective (fun _ => false) _ _ (by decide)⟩

/-- Claim C4 counterexample: the invariant
`assignments ⊆ {0..len(characters)-1} × connected players` is not
preserved by `update_characters` — with connection 1 assigned to character
index 1 of a two-character roster, the host replacing the roster by a
single character leaves the stale assignment (1, 1) out of bounds. -/
theorem c4_roster_shrink_counterexample :
    sessionInv (GameSession.mk "7777" 0 [1] none
      [Character.mk "Alice", Character.mk "Bob"] [(1, 1)]) ∧
    ¬ sessionInv (update_characters (fun _ => false)
      (GameSession.mk "7777" 0 [1] none
        [Character.mk "Alice", Character.mk "Bob"] [(1, 1)])
      [Character.mk "Alice"]).1 :=
  ⟨by decide, by decide⟩

/-- Claim C4 as amended: the invariant is preserved by `connect_player`,
`disconnect_player`, `update_game_state`, and by `assign_character`
whenever the caller is a connected player (as the protocol handler
guarantees); `update_characters` always preserves the
connected-players half, but preserves the index-bounds half only when the
new roster is at least as long as the old one — a shrinking roster can
leave stale assignments out of bounds. -/
theorem c4_session_invariant_amended (fails : Nat → Bool) (s : GameSession)
    (ws : Nat) (ci : Int) (scene : StoryScene) (chars : List Character)
    (h : sessionInv s) :
    sessionInv (connect_player fails s ws).1 ∧
    (ws ∈ s.player_connections → sessionInv (assign_character fails s ws ci).1) ∧
    sessionInv (disconnect_player s ws) ∧
    sessionInv (update_game_state fails s scene).1 ∧
    (∀ p ∈ (update_characters fails s chars).1.assigned_characters,
        p.1 ∈ (update_characters fails s chars).1.player_connections) ∧
    (s.characters.length ≤ chars.length →
        sessionInv (update_characters fails s chars).1) := by
  obtain ⟨hmem, hbnd⟩ := h
  refine ⟨⟨fun p hp => List.mem_append_left _ (hmem p hp), hbnd⟩,
    ?_, ?_, ⟨hmem, hbnd⟩, hmem, ?_⟩
  · intro hws
    rcases assign_character_state fails s ws ci with heq | ⟨heq, -, hbounds⟩
    · rw [heq]
      exact ⟨hmem, hbnd⟩
    · rw [heq]
      refine ⟨?_, ?_⟩
      · intro p hp
        rcases mem_dictSet_elim hp with hp' | hp'
        · exact hmem p hp'
        · rw [hp']
          exact hws
      · intro p hp
        rcases mem_dictSet_elim hp with hp' | hp'
        · exact hbnd p hp'
        · rw [hp']
          show 0 ≤ ci ∧ ci < (s.characters.length : Int)
          omega
  · unfold disconnect_player
    by_cases hws : ws ∈ s.player_connections
    · rw [if_pos hws]
      refine ⟨?_, ?_⟩
      · intro p hp
        have hp' := List.mem_filter.mp hp
        have hpne : p.1 ≠ ws := by simpa using hp'.2
        exact (List.mem_erase_of_ne hpne).mpr (hmem p hp'.1)
      · intro p hp
        exact hbnd p (List.mem_filter.mp hp).1
    · rw [if_neg hws]
      exact ⟨hmem, hbnd⟩
  · intro hlen
    refine ⟨hmem, fun p hp => ?_⟩
    have hb := hbnd p hp
    have hcast : (s.characters.length : Int) ≤ (chars.length : Int) := by
      exact_mod_cast hlen
    show 0 ≤ p.2 ∧ p.2 < (chars.length : Int)
    omega

/-- Witness for C4 at the fixture session: every preserved-operation
conclusion holds at the concrete inputs (connecting player 2 again,
assigning 2 to index 1, disconnecting 2, a scene broadcast, and a roster
grown to three characters). -/
theorem c4_session_invariant_amended_witness :
    sessionInv wsFixture ∧
    sessionInv (connect_player (fun _ => false) wsFixture 2).1 ∧
    sessionInv (assign_character (fun _ => false) wsFixture 2 1).1 ∧
    sessionInv (disconnect_player wsFixture 2) ∧
    sessionInv (update_game_state (fun _ => false) wsFixture sceneFixture).1 ∧
    (∀ p ∈ (update_characters (fun _ => false) wsFixture
        [Character.mk "Alice", Character.mk "Bob", Character.mk "Cleo"]).1.assigned_characters,
      p.1 ∈ (update_characters (fun _ => false) wsFixture
        [Character.mk "Alice", Character.mk "Bob", Character.mk "Cleo"]).1.player_connections) ∧
    sessionInv (update_characters (fun _ => false) wsFixture
      [Character.mk "Alice", Character.mk "Bob", Character.mk "Cleo"]).1 :=
  have happ := c4_session_invariant_amended (fun _ => false) wsFixture 2 1
    sceneFixture [Character.mk "Alice", Character.mk "Bob", Character.mk "Cleo"]
    (by decide)
  ⟨by decide, happ.1, happ.2.1 (by decide), happ.2.2.1, happ.2.2.2.1,
    happ.2.2.2.2.1, happ.2.2.2.2.2 (by decide)⟩

/-- Claim C5: with a reachable originating connection (`fails ws = false`,
so the error reply itself can be delivered), `assign_character` replies
with the character-taken error exactly when the index is already among the
assignment map's values (this check runs first), replies with the
invalid-selection error exactly when the index is not taken and out of
bounds, and on either failure the delivered messages go only to the
originating connection and the session state is left unchanged. -/
theorem c5_assign_character_error_spec (fails : Nat → Bool) (s : GameSession)
    (ws : Nat) (ci : Int) (hf : fails ws = false) :
    ((assign_character fails s ws ci).2.2 = Except.ok false ∧
      (assign_character fails s ws ci).2.1 =
        [(ws, Msg.errorMsg "This character is already taken by another player")] ↔
      ci ∈ dictValues s.assigned_characters) ∧
    ((assign_character fails s ws ci).2.2 = Except.ok false ∧
      (assign_character fails s ws ci).2.1 =
        [(ws, Msg.errorMsg "Invalid character selection")] ↔
      (ci ∉ dictValues s.assigned_characters ∧
        (ci < 0 ∨ (s.characters.length : Int) ≤ ci))) ∧
    ((assign_character fails s ws ci).2.2 = Except.ok false →
      (assign_character fails s ws ci).1 = s) := by
  have hmsgs : ("This character is already taken by another player" : String) ≠
      "Invalid character selection" := by decide
  by_cases h1 : ci ∈ dictValues s.assigned_characters
  · have hr : assign_character fails s ws ci =
        (s, [(ws, Msg.errorMsg "This character is already taken by another player")],
          Except.ok false) := by
      unfold assign_character send_json
      rw [if_pos h1, hf]
      rfl
    rw [hr]
    refine ⟨?_, ?_, ?_⟩
    · simp [h1]
    · constructor
      · rintro ⟨-, hmsg⟩
        simp only [List.cons.injEq, Prod.mk.injEq, Msg.errorMsg.injEq] at hmsg
        exact absurd hmsg.1.2 hmsgs
      · rintro ⟨hnot, -⟩
        exact absurd h1 hnot
    · intro
      rfl
  · by_cases h2 : ci < 0 ∨ (s.characters.length : Int) ≤ ci
    · have hr : assign_character fails s ws ci =
          (s, [(ws, Msg.errorMsg "Invalid character selection")], Except.ok false) := by
        unfold assign_character send_json
        rw [if_neg h1, if_pos h2, hf]
        rfl
      rw [hr]
      refine ⟨?_, ?_, ?_⟩
      · constructor
        · rintro ⟨-, hmsg⟩
          simp only [List.cons.injEq, Prod.mk.injEq, Msg.errorMsg.injEq] at hmsg
          exact absurd hmsg.1.2.symm hmsgs
        · intro htaken
          exact absurd htaken h1
      · simp [h1, h2]
      · intro
        rfl
    · obtain ⟨hok, -⟩ := assign_character_success fails s ws ci h1
        (by omega) (by omega) hf
      rw [hok]
      refine ⟨?_, ?_, ?_⟩
      · simp [h1]
      · constructor
        · rintro ⟨hcontra, -⟩
          exact absurd hcontra (by simp)
        · rintro ⟨-, hb⟩
          exact absurd hb h2
      · intro hcontra
        exact absurd hcontra (by simp)

/-- Witness for C5 at the fixture (character 0 is taken by connection 1):
connection 2 asking for 0 gets exactly the taken error with the state
unchanged, and asking for 5 gets exactly the invalid-index error. -/
theorem c5_assign_character_error_spec_witness :
    ((assign_character (fun _ => false) wsFixture 2 0).2.2 = Except.ok false ∧
      (assign_character (fun _ => false) wsFixture 2 0).2.1 =
        [(2, Msg.errorMsg "This character is already taken by another player")]) ∧
    ((assign_character (fun _ => false) wsFixture 2 5).2.2 = Except.ok false ∧
      (assign_character (fun _ => false) wsFixture 2 5).2.1 =
        [(2, Msg.errorMsg "Invalid character selection")]) ∧
    (assign_character (fun _ => false) wsFixture 2 0).1 = wsFixture :=
  have hA := c5_assign_character_error_spec (fun _ => false) wsFixture 2 0 rfl
  have hB := c5_assign_character_error_spec (fun _ => false) wsFixture 2 5 rfl
  ⟨hA.1.mpr (by decide), hB.2.1.mpr (by decide),
    hA.2.2 (hA.1.mpr (by decide)).1⟩

/-- Claim C6: `update_game_state` stores the new scene as the current
snapshot, leaves connections and assignments unchanged, and — assuming the
session invariant that every assignment key is a connected player — a
message reaches a connection iff that connection is assigned, its own send
does not fail, and the message is the `game_state_update` with the new
scene: delivery is per-connection (one connection's failure cannot be seen
in another's condition) and the operation is total, surfacing no error. -/
theorem c6_update_game_state_spec (fails : Nat → Bool) (s : GameSession)
    (scene : StoryScene) (ws : Nat) (msg : Msg)
    (hsub : ∀ p ∈ s.assigned_characters, p.1 ∈ s.player_connections) :
    (update_game_state fails s scene).1.current_scene = some scene ∧
    (update_game_state fails s scene).1.assigned_characters =
      s.assigned_characters ∧
    (update_game_state fails s scene).1.player_connections =
      s.player_connections ∧
    ((ws, msg) ∈ (update_game_state fails s scene).2 ↔
      (dictHasKey s.assigned_characters ws = true ∧ fails ws = false ∧
        msg = Msg.gameStateUpdate scene)) := by
  refine ⟨rfl, rfl, rfl, ?_⟩
  have hout : (update_game_state fails s scene).2 =
      s.player_connections.flatMap (fun player_ws =>
        if dictHasKey s.assigned_characters player_ws = true ∧
            fails player_ws = false then
          [(player_ws, Msg.gameStateUpdate scene)]
        else []) := by
    unfold update_game_state
    dsimp only
    congr 1
    funext w
    by_cases hkey : dictHasKey s.assigned_characters w = true
    · rw [if_pos hkey]
      unfold send_game_state_to_player trySend
      dsimp only
      rw [if_pos hkey]
      cases hfw : fails w with
      | false => simp [hkey]
      | true => simp
    · rw [if_neg hkey, if_neg (fun hc => hkey hc.1)]
  rw [hout, List.mem_flatMap]
  constructor
  · rintro ⟨w, hw, hmem⟩
    by_cases hc : dictHasKey s.assigned_characters w = true ∧ fails w = false
    · rw [if_pos hc, List.mem_singleton, Prod.ext_iff] at hmem
      obtain ⟨hws, hmsg⟩ := hmem
      subst hws
      exact ⟨hc.1, hc.2, hmsg⟩
    · rw [if_neg hc] at hmem
      cases hmem
  · rintro ⟨hkey, hfw, rfl⟩
    refine ⟨ws, ?_, ?_⟩
    · have hkm : ws ∈ s.assigned_characters.map Prod.fst := by
        simpa [dictHasKey] using hkey
      obtain ⟨p, hp, hpws⟩ := List.mem_map.mp hkm
      exact hpws ▸ hsub p hp
    · rw [if_pos ⟨hkey, hfw⟩]
      exact List.mem_singleton.mpr rfl

/-- Witness for C6 at the fixture with both players assigned and
connection 1's send failing: connection 2 still receives the new scene,
connection 1 receives nothing, and the scene is stored — one connection's
failure does not prevent delivery to the other. -/
theorem c6_update_game_state_spec_witness :
    ((2 : Nat), Msg.gameStateUpdate sceneFixture) ∈
      (update_game_state (fun w => w == 1)
        (GameSession.mk "7777" 0 [1, 2] none
          [Character.mk "Alice", Character.mk "Bob"] [(1, 0), (2, 1)])
        sceneFixture).2 ∧
    ¬ (((1 : Nat), Msg.gameStateUpdate sceneFixture) ∈
      (update_game_state (fun w => w == 1)
        (GameSession.mk "7777" 0 [1, 2] none
          [Character.mk "Alice", Character.mk "Bob"] [(1, 0), (2, 1)])
        sceneFixture).2) ∧
    (update_game_state (fun w => w == 1)
      (GameSession.mk "7777" 0 [1, 2] none
        [Character.mk "Alice", Character.mk "Bob"] [(1, 0), (2, 1)])
      sceneFixture).1.current_scene = some sceneFixture :=
  have h2 := c6_update_game_state_spec (fun w => w == 1)
    (GameSession.mk "7777" 0 [1, 2] none
      [Character.mk "Alice", Character.mk "Bob"] [(1, 0), (2, 1)])
    sceneFixture 2 (Msg.gameStateUpdate sceneFixture) (by decide)
  have h1 := c6_update_game_state_spec (fun w => w == 1)
    (GameSession.mk "7777" 0 [1, 2] none
      [Character.mk "Alice", Character.mk "Bob"] [(1, 0), (2, 1)])
    sceneFixture 1 (Msg.gameStateUpdate sceneFixture) (by decide)
  ⟨h2.2.2.2.mpr (by exact ⟨by decide, by decide, rfl⟩),
    fun hmem => by simpa using (h1.2.2.2.mp hmem).2.1,
    h2.1⟩

/-- Claim C10: a connection already holding character `a` may call
`assign_character` again with an untaken, in-bounds index `b`: the call
succeeds, the connection's entry is overwritten to `b`, the roster is
untouched, and the previously held `a` is no longer among the assigned
values, so a later `assign_character` of `a` by another connection
succeeds. -/
theorem c10_reassign_frees_previous_index (fails : Nat → Bool)
    (s : GameSession) (ws ws2 : Nat) (a b : Int)
    (hinj : injectiveAssignments s.assigned_characters)
    (hws : dictGet s.assigned_characters ws = some a)
    (hb : b ∉ dictValues s.assigned_characters)
    (hb0 : 0 ≤ b) (hb1 : b < (s.characters.length : Int))
    (ha0 : 0 ≤ a) (ha1 : a < (s.characters.length : Int))
    (hf : fails ws = false) :
    (assign_character fails s ws b).2.2 = Except.ok true ∧
    dictGet (assign_character fails s ws b).1.assigned_characters ws = some b ∧
    a ∉ dictValues (assign_character fails s ws b).1.assigned_characters ∧
    (assign_character fails s ws b).1.characters = s.characters ∧
    (∀ fails2 : Nat → Bool, fails2 ws2 = false →
      (assign_character fails2 (assign_character fails s ws b).1 ws2 a).2.2 =
        Except.ok true) := by
  obtain ⟨hok, hstate⟩ := assign_character_success fails s ws b hb hb0 hb1 hf
  have hfrees : a ∉ dictValues (dictSet s.assigned_characters ws b) := by
    intro hmem
    rcases mem_values_dictSet_of_nodup hinj.1 hmem with hab | ⟨p, hp, hpa, hpws⟩
    · exact hb (hab ▸ (List.mem_map_of_mem Prod.snd (dictGet_mem hws)))
    · have hpeq : p = (ws, a) :=
        List.inj_on_of_nodup_map hinj.2 hp (dictGet_mem hws) (by simpa using hpa)
      exact hpws (by rw [hpeq])
  refine ⟨hok, ?_, ?_, ?_, ?_⟩
  · rw [hstate]
    exact dictGet_dictSet_self s.assigned_characters ws b
  · rw [hstate]
    exact hfrees
  · rw [hstate]
  · intro fails2 hf2
    have hfrees' : a ∉ dictValues (assign_character fails s ws b).1.assigned_characters := by
      rw [hstate]
      exact hfrees
    have hchars : ((assign_character fails s ws b).1.characters.length : Int) =
        (s.characters.length : Int) := by
      rw [hstate]
    exact (assign_character_success fails2 (assign_character fails s ws b).1
      ws2 a hfrees' ha0 (by rw [hchars]; exact ha1) hf2).1

/-- Witness for C10 at the fixture: connection 1 (holding 0) re-assigns to
1; the call returns `True`, the entry becomes (1, 1), index 0 is free
again, and connection 2 then takes 0 successfully. -/
theorem c10_reassign_frees_previous_index_witness :
    (assign_character (fun _ => false) wsFixture 1 1).2.2 = Except.ok true ∧
    dictGet (assign_character (fun _ => false) wsFixture 1 1).1.assigned_characters 1 =
      some 1 ∧
    (0 : Int) ∉ dictValues
      (assign_character (fun _ => false) wsFixture 1 1).1.assigned_characters ∧
    (assign_character (fun _ => false) wsFixture 1 1).1.characters =
      wsFixture.characters ∧
    (assign_character (fun _ => false)
      (assign_character (fun _ => false) wsFixture 1 1).1 2 0).2.2 =
        Except.ok true :=
  have happ := c10_reassign_frees_previous_index (fun _ => false) wsFixture 1 2
    0 1 (by decide) (by decide) (by decide) (by decide) (by decide)
    (by decide) (by decide) rfl
  ⟨happ.1, happ.2.1, happ.2.2.1, happ.2.2.2.1,
    happ.2.2.2.2 (fun _ => false) rfl⟩

end AIDnD
